import Mathlib

set_option maxRecDepth 400000

/-
Verification development for the change-detection engine of `case_common.py`
(class `CaseChangeTracker` and its helpers).  The Python code is shallowly
embedded: JSON-like dynamic values become the inductive `JValue`, dictionaries
become association lists in insertion order (CPython dicts preserve insertion
order), `hashlib.md5` is implemented bit-for-bit over `Nat` with explicit
`% 2^32` reductions, and `datetime.now()` is passed in as an explicit `now`
argument.
-/

namespace CaseCommon

/-- Dynamic values as they occur in the tracker's dictionaries: `None`,
booleans, strings, and nested dicts (association lists in insertion order).
The parser in `case_common.py` only ever builds these shapes. -/
inductive JValue where
  | null : JValue
  | bool : Bool → JValue
  | str : String → JValue
  | obj : List (String × JValue) → JValue
deriving Repr

def jvalDecEq : (a b : JValue) → Decidable (a = b)
  | .null, .null => isTrue rfl
  | .null, .bool _ => isFalse (fun h => JValue.noConfusion h)
  | .null, .str _ => isFalse (fun h => JValue.noConfusion h)
  | .null, .obj _ => isFalse (fun h => JValue.noConfusion h)
  | .bool _, .null => isFalse (fun h => JValue.noConfusion h)
  | .bool a, .bool b =>
    if h : a = b then isTrue (by rw [h]) else isFalse (by simp [h])
  | .bool _, .str _ => isFalse (fun h => JValue.noConfusion h)
  | .bool _, .obj _ => isFalse (fun h => JValue.noConfusion h)
  | .str _, .null => isFalse (fun h => JValue.noConfusion h)
  | .str _, .bool _ => isFalse (fun h => JValue.noConfusion h)
  | .str a, .str b =>
    if h : a = b then isTrue (by rw [h]) else isFalse (by simp [h])
  | .str _, .obj _ => isFalse (fun h => JValue.noConfusion h)
  | .obj _, .null => isFalse (fun h => JValue.noConfusion h)
  | .obj _, .bool _ => isFalse (fun h => JValue.noConfusion h)
  | .obj _, .str _ => isFalse (fun h => JValue.noConfusion h)
  | .obj a, .obj b =>
    match jfieldsDecEq a b with
    | isTrue h => isTrue (by rw [h])
    | isFalse h => isFalse (by simp [h])
where jfieldsDecEq : (a b : List (String × JValue)) → Decidable (a = b)
  | [], [] => isTrue rfl
  | [], _ :: _ => isFalse (fun h => List.noConfusion h)
  | _ :: _, [] => isFalse (fun h => List.noConfusion h)
  | (k, v) :: t, (k2, v2) :: t2 =>
    match jvalDecEq v v2 with
    | isTrue hv =>
      match jfieldsDecEq t t2 with
      | isTrue ht =>
        if hk : k = k2 then isTrue (by rw [hk, hv, ht])
        else isFalse (by intro e; injection e with e1 e2; exact hk (congrArg Prod.fst e1))
      | isFalse ht => isFalse (by intro e; injection e with e1 e2; exact ht e2)
    | isFalse hv => isFalse (by intro e; injection e with e1 e2; exact hv (congrArg Prod.snd e1))

instance : DecidableEq JValue := jvalDecEq

/-- Code-point lexicographic `≤` on char lists, as Python compares strings. -/
def charListLe : List Char → List Char → Bool
  | [], _ => true
  | _ :: _, [] => false
  | c :: cs, d :: ds =>
    if c.toNat < d.toNat then true
    else if d.toNat < c.toNat then false
    else charListLe cs ds

/-- Python string `≤` (code-point lexicographic). -/
def strLeB (a b : String) : Bool := charListLe a.data b.data

/-- Key order on association-list entries. -/
def keyLe {α : Type} (a b : String × α) : Prop := strLeB a.1 b.1 = true

instance {α : Type} : DecidableRel (@keyLe α) := fun _ _ => instDecidableEqBool _ _

/-- Sort an association list by key.  Python `sorted(d.items())` is a stable
sort, and keys are distinct in a dict, so tuple comparison reduces to key
comparison; a stable insertion sort produces the same list. -/
def sortByKey (l : List (String × JValue)) : List (String × JValue) :=
  l.insertionSort keyLe

/-- Canonical form: every nested dict's fields sorted by key.  Two values
with no duplicate keys are equal as Python values iff their canonical forms
are equal; this models Python's order-insensitive dict equality (`==`). -/
def canon : JValue → JValue
  | .null => .null
  | .bool b => .bool b
  | .str s => .str s
  | .obj l => .obj (sortByKey (canonFields l))
where canonFields : List (String × JValue) → List (String × JValue)
  | [] => []
  | (k, v) :: t => (k, canon v) :: canonFields t

/-- Python `==` on the embedded values (order-insensitive on dicts). -/
def pyEq (a b : JValue) : Bool := canon a = canon b

/-- Python truthiness: `None`, `False`, `''` and `{}` are falsy. -/
def JValue.truthy : JValue → Bool
  | .null => false
  | .bool b => b
  | .str s => !(s == "")
  | .obj l => !l.isEmpty

/-- `d.get(k)`: first binding for `k`, `None` when absent (Python returns
`None` both for a missing key and for a stored `None`, so collapsing the
absent case to `.null` is faithful for every use in the tracker). -/
def jget (l : List (String × JValue)) (k : String) : JValue :=
  match l.find? (fun p => p.1 = k) with
  | some p => p.2
  | none => .null

/-- `d.get(k, default)`. -/
def jgetD (l : List (String × JValue)) (k : String) (dflt : JValue) : JValue :=
  match l.find? (fun p => p.1 = k) with
  | some p => p.2
  | none => dflt

/-! ### MD5 (`hashlib.md5(...).hexdigest()`), over byte lists -/

/-- Reduce a natural number to a 32-bit word. -/
def w32 (n : Nat) : Nat := n % 4294967296

/-- 32-bit left rotation (inputs assumed `< 2^32`). -/
def rotl32 (x s : Nat) : Nat := w32 (x <<< s) + (x >>> (32 - s))

/-- The 64 MD5 round constants `floor(2^32 * |sin(i+1)|)`. -/
def md5K : List Nat :=
  [0xd76aa478, 0xe8c7b756, 0x242070db, 0xc1bdceee, 0xf57c0faf, 0x4787c62a, 0xa8304613, 0xfd469501,
   0x698098d8, 0x8b44f7af, 0xffff5bb1, 0x895cd7be, 0x6b901122, 0xfd987193, 0xa679438e, 0x49b40821,
   0xf61e2562, 0xc040b340, 0x265e5a51, 0xe9b6c7aa, 0xd62f105d, 0x02441453, 0xd8a1e681, 0xe7d3fbc8,
   0x21e1cde6, 0xc33707d6, 0xf4d50d87, 0x455a14ed, 0xa9e3e905, 0xfcefa3f8, 0x676f02d9, 0x8d2a4c8a,
   0xfffa3942, 0x8771f681, 0x6d9d6122, 0xfde5380c, 0xa4beea44, 0x4bdecfa9, 0xf6bb4b60, 0xbebfbc70,
   0x289b7ec6, 0xeaa127fa, 0xd4ef3085, 0x04881d05, 0xd9d4d039, 0xe6db99e5, 0x1fa27cf8, 0xc4ac5665,
   0xf4292244, 0x432aff97, 0xab9423a7, 0xfc93a039, 0x655b59c3, 0x8f0ccc92, 0xffeff47d, 0x85845dd1,
   0x6fa87e4f, 0xfe2ce6e0, 0xa3014314, 0x4e0811a1, 0xf7537e82, 0xbd3af235, 0x2ad7d2bb, 0xeb86d391]

/-- The 64 per-round shift amounts. -/
def md5S : List Nat :=
  [7, 12, 17, 22, 7, 12, 17, 22, 7, 12, 17, 22, 7, 12, 17, 22,
   5, 9, 14, 20, 5, 9, 14, 20, 5, 9, 14, 20, 5, 9, 14, 20,
   4, 11, 16, 23, 4, 11, 16, 23, 4, 11, 16, 23, 4, 11, 16, 23,
   6, 10, 15, 21, 6, 10, 15, 21, 6, 10, 15, 21, 6, 10, 15, 21]

/-- Round function (complement is xor with the all-ones 32-bit word). -/
def md5F (i b c d : Nat) : Nat :=
  if i < 16 then (b &&& c) ||| (Nat.xor b 4294967295 &&& d)
  else if i < 32 then (d &&& b) ||| (Nat.xor d 4294967295 &&& c)
  else if i < 48 then Nat.xor (Nat.xor b c) d
  else Nat.xor c (b ||| Nat.xor d 4294967295)

/-- Message-word index for round `i`. -/
def md5G (i : Nat) : Nat :=
  if i < 16 then i
  else if i < 32 then (5 * i + 1) % 16
  else if i < 48 then (3 * i + 5) % 16
  else (7 * i) % 16

/-- One MD5 round over state `(a, b, c, d)`. -/
def md5Step (M : List Nat) (st : Nat × Nat × Nat × Nat) (i : Nat) : Nat × Nat × Nat × Nat :=
  match st with
  | (a, b, c, d) =>
    let f := w32 (md5F i b c d + a + md5K.getD i 0 + M.getD (md5G i) 0)
    (d, w32 (b + rotl32 f (md5S.getD i 0)), b, c)

/-- Process one 16-word block. -/
def md5Block (h : Nat × Nat × Nat × Nat) (M : List Nat) : Nat × Nat × Nat × Nat :=
  match h, (List.range 64).foldl (md5Step M) h with
  | (h0, h1, h2, h3), (a, b, c, d) => (w32 (h0 + a), w32 (h1 + b), w32 (h2 + c), w32 (h3 + d))

/-- MD5 padding: `0x80`, zeros to 56 mod 64, then the bit length little-endian. -/
def md5Pad (msg : List Nat) : List Nat :=
  let len := msg.length
  msg ++ [128] ++ List.replicate ((119 - len % 64) % 64) 0
      ++ (List.range 8).map (fun i => ((len * 8) >>> (8 * i)) % 256)

/-- Split a byte list into 64-byte blocks.  The fuel of the first argument
strictly exceeds the block count whenever called through `toBlocks`, so the
fuel-out branch is unreachable. -/
def toBlocksAux : Nat → List Nat → List (List Nat)
  | _, [] => []
  | 0, _ => []
  | fuel + 1, l => l.take 64 :: toBlocksAux fuel (l.drop 64)

/-- Split a byte list into 64-byte blocks. -/
def toBlocks (l : List Nat) : List (List Nat) := toBlocksAux (l.length + 1) l

/-- Decode a 64-byte block into 16 little-endian 32-bit words. -/
def words16 (block : List Nat) : List Nat :=
  (List.range 16).map (fun j =>
    block.getD (4 * j) 0 + 256 * block.getD (4 * j + 1) 0
      + 65536 * block.getD (4 * j + 2) 0 + 16777216 * block.getD (4 * j + 3) 0)

/-- Lowercase hex digit. -/
def hexDigit (n : Nat) : Char := if n < 10 then Char.ofNat (48 + n) else Char.ofNat (87 + n)

/-- Two lowercase hex digits of a byte. -/
def byteHexChars (b : Nat) : List Char := [hexDigit (b / 16 % 16), hexDigit (b % 16)]

/-- Eight hex chars of a 32-bit word, bytes little-endian. -/
def wordHexLE (word : Nat) : List Char :=
  byteHexChars (word % 256) ++ byteHexChars ((word >>> 8) % 256)
    ++ byteHexChars ((word >>> 16) % 256) ++ byteHexChars ((word >>> 24) % 256)

/-- `hashlib.md5(msg).hexdigest()` for a byte list. -/
def md5Bytes (msg : List Nat) : String :=
  match ((toBlocks (md5Pad msg)).map words16).foldl md5Block
      (0x67452301, 0xefcdab89, 0x98badcfe, 0x10325476) with
  | (a, b, c, d) => String.mk (wordHexLE a ++ wordHexLE b ++ wordHexLE c ++ wordHexLE d)

/-- UTF-8 encoding of one code point. -/
def utf8EncodeChar (c : Char) : List Nat :=
  let n := c.toNat
  if n < 128 then [n]
  else if n < 2048 then [192 + n / 64, 128 + n % 64]
  else if n < 65536 then [224 + n / 4096, 128 + n / 64 % 64, 128 + n % 64]
  else [240 + n / 262144, 128 + n / 4096 % 64, 128 + n / 64 % 64, 128 + n % 64]

/-- `s.encode('utf-8')` as a byte list. -/
def utf8Bytes (s : String) : List Nat :=
  s.data.foldr (fun c acc => utf8EncodeChar c ++ acc) []

/-- `hashlib.md5(s.encode('utf-8')).hexdigest()`. -/
def md5hexStr (s : String) : String := md5Bytes (utf8Bytes s)

/-! ### `json.dumps(content, sort_keys=True)` (default separators, ensure_ascii) -/

/-- Four lowercase hex digits. -/
def hexDigit4 (n : Nat) : List Char :=
  [hexDigit (n / 4096 % 16), hexDigit (n / 256 % 16), hexDigit (n / 16 % 16), hexDigit (n % 16)]

/-- JSON escaping of one character as `json.dumps` does with `ensure_ascii=True`:
printable ASCII except quote and backslash kept, short escapes for the usual
control characters, `\uXXXX` (with surrogate pairs) for the rest. -/
def jsonEscapeChar (c : Char) : List Char :=
  let n := c.toNat
  if n = 34 then ['\\', '"']
  else if n = 92 then ['\\', '\\']
  else if n = 10 then ['\\', 'n']
  else if n = 13 then ['\\', 'r']
  else if n = 9 then ['\\', 't']
  else if n = 8 then ['\\', 'b']
  else if n = 12 then ['\\', 'f']
  else if 32 ≤ n ∧ n ≤ 126 then [c]
  else if n < 65536 then '\\' :: 'u' :: hexDigit4 n
  else
    ('\\' :: 'u' :: hexDigit4 (55296 + (n - 65536) / 1024))
      ++ ('\\' :: 'u' :: hexDigit4 (56320 + (n - 65536) % 1024))

/-- A JSON string literal for `s`. -/
def jsonQuote (s : String) : String :=
  String.mk ('"' :: s.data.foldr (fun c acc => jsonEscapeChar c ++ acc) [] ++ ['"'])

/-- `json.dumps(v, sort_keys=True)`: each dict rendered with its keys sorted,
default separators `", "` and `": "`.  Each dict's fields are rendered first
and the rendered pairs stably sorted by key, which yields the same string as
sorting before rendering. -/
def jsonDumpsSorted : JValue → String
  | .null => "null"
  | .bool b => if b then "true" else "false"
  | .str s => jsonQuote s
  | .obj l =>
    "\x7b" ++ String.intercalate ", "
      (((dumpsFields l).insertionSort keyLe).map
        (fun p => jsonQuote p.1 ++ ": " ++ p.2)) ++ "\x7d"
where dumpsFields : List (String × JValue) → List (String × String)
  | [] => []
  | (k, v) :: t => (k, jsonDumpsSorted v) :: dumpsFields t

/-- `CaseChangeTracker.calculate_content_hash`: md5 of a string's utf-8 bytes;
for dicts, md5 of `json.dumps(content, sort_keys=True)`; `""` otherwise. -/
def calculate_content_hash : JValue → String
  | .str s => md5hexStr s
  | .obj l => md5hexStr (jsonDumpsSorted (.obj l))
  | _ => ""

/-! ### Text extraction and line diffing -/

/-- The six characters Python's `str.strip()` removes from ASCII text. -/
def isPySpace (c : Char) : Bool :=
  c.toNat = 32 || c.toNat = 9 || c.toNat = 10 || c.toNat = 13 || c.toNat = 11 || c.toNat = 12

/-- Python `str.strip()`. -/
def pyStrip (s : String) : String :=
  String.mk ((((s.data.dropWhile isPySpace).reverse).dropWhile isPySpace).reverse)

/-- Split a char list at every occurrence of `sep`, Python `str.split(sep)`
for a one-character separator. -/
def splitOnCharAux (sep : Char) : List Char → List Char → List String
  | cur, [] => [String.mk cur.reverse]
  | cur, c :: rest =>
    if c = sep then String.mk cur.reverse :: splitOnCharAux sep [] rest
    else splitOnCharAux sep (c :: cur) rest

/-- Python `s.split(sep)` for a one-character separator. -/
def splitOnCharPy (sep : Char) (s : String) : List String := splitOnCharAux sep [] s.data

/-- Python `s.split("  ")`: split at non-overlapping double spaces, left to
right. -/
def splitTwoSpacesAux : List Char → List Char → List String
  | cur, ' ' :: ' ' :: rest => String.mk cur.reverse :: splitTwoSpacesAux [] rest
  | cur, c :: rest => splitTwoSpacesAux (c :: cur) rest
  | cur, [] => [String.mk cur.reverse]

/-- Python `s.split("  ")`. -/
def splitTwoSpacesPy (s : String) : List String := splitTwoSpacesAux [] s.data

/-- Python `str.splitlines()` restricted to `\n` separators: no trailing empty
line, empty string gives no lines. -/
def splitlinesPy (s : String) : List String :=
  if s = "" then []
  else
    let parts := splitOnCharPy (Char.ofNat 10) s
    if parts.getLast? = some "" then parts.dropLast else parts

/-- Skip past the closing `>` of a markup tag. -/
def dropUntilGt : List Char → List Char
  | [] => []
  | c :: rest => if c = '>' then rest else dropUntilGt rest

/-- Skip everything up to and including the closing tag `</name...>`. -/
def skipClose (tagName : List Char) : List Char → List Char
  | [] => []
  | c :: rest =>
    if ('<' :: '/' :: tagName).isPrefixOf (c :: rest) then dropUntilGt rest
    else skipClose tagName rest

/-- Fuelled text-node scan; every step consumes at least one character, so
fuel `≥ length + 1` never runs out. -/
def visibleTextAux : Nat → List Char → List Char
  | _, [] => []
  | 0, _ => []
  | fuel + 1, c :: rest =>
    if c = '<' then
      if ("script".data).isPrefixOf rest then
        visibleTextAux fuel (skipClose "script".data (dropUntilGt rest))
      else if ("style".data).isPrefixOf rest then
        visibleTextAux fuel (skipClose "style".data (dropUntilGt rest))
      else visibleTextAux fuel (dropUntilGt rest)
    else c :: visibleTextAux fuel rest

/-- Modelled from the spec: `BeautifulSoup(...).get_text()` after decomposing
`script` and `style` elements is an external-library call; the spec reads
"markup stripped to visible text, so cosmetic structural change — e.g.
style/script payload — does not register".  Tags are dropped and the payload
of `script`/`style` elements is skipped entirely. -/
def visibleText (l : List Char) : List Char := visibleTextAux (l.length + 1) l

/-- `CaseChangeTracker.extract_text_content`: strip markup, then re-join the
stripped lines' double-space-separated chunks with single spaces, dropping
empties.  A non-string input makes `BeautifulSoup` raise, and the
`except` branch returns the input unchanged. -/
def extract_text_content (html_content : JValue) : JValue :=
  match html_content with
  | .str s =>
    let text := String.mk (visibleText s.data)
    let lines := (splitlinesPy text).map pyStrip
    let chunks := lines.foldr (fun line acc => (splitTwoSpacesPy line).map pyStrip ++ acc) []
    .str (String.intercalate " " (chunks.filter (fun chunk => chunk ≠ "")))
  | v => v

/-- Fuelled longest common subsequence; every step shrinks the combined
length, so fuel `≥ combined length + 1` never runs out. -/
def lcsAux : Nat → List String → List String → List String
  | _, [], _ => []
  | _, _, [] => []
  | 0, _, _ => []
  | fuel + 1, x :: xs, y :: ys =>
    if x = y then x :: lcsAux fuel xs ys
    else
      let l1 := lcsAux fuel xs (y :: ys)
      let l2 := lcsAux fuel (x :: xs) ys
      if l2.length ≤ l1.length then l1 else l2

/-- Longest common subsequence of two line lists. -/
def lcs (a b : List String) : List String := lcsAux (a.length + b.length + 1) a b

/-- Emit removed (`false`) and added (`true`) lines around a common
subsequence, hunk by hunk: removed lines of a region before its added lines. -/
def diffAround : List String → List String → List String → List (Bool × String)
  | old, new, [] => old.map (fun x => (false, x)) ++ new.map (fun y => (true, y))
  | old, new, c :: cs =>
    (old.takeWhile (fun x => x ≠ c)).map (fun x => (false, x))
      ++ (new.takeWhile (fun y => y ≠ c)).map (fun y => (true, y))
      ++ diffAround ((old.dropWhile (fun x => x ≠ c)).drop 1)
          ((new.dropWhile (fun y => y ≠ c)).drop 1) cs

/-- Modelled from the spec: `difflib.unified_diff` is an external-library
call; the spec reads "a standard line-based longest-common-subsequence diff
(unified-diff style): lines present only in `new_text` are `added`, lines
present only in `old_text` are `removed`, unchanged lines are omitted". -/
def lineDiff (old new : List String) : List (Bool × String) :=
  diffAround old new (lcs old new)

/-- `CaseChangeTracker.compare_text_content`: keep only the `+`/`-` lines of
the diff, prefixed and stripped.  Non-string inputs would raise
(`splitlines` on a non-string) — unreachable for parsed snapshots. -/
def compare_text_content (old_text new_text : JValue) : List String :=
  match old_text, new_text with
  | .str a, .str b =>
    (lineDiff (splitlinesPy a) (splitlinesPy b)).map
      (fun p => (if p.1 then "Добавлено: " else "Удалено: ") ++ pyStrip p.2)
  | _, _ => []

/-! ### Change events and the tracker -/

/-- One change dict as built inside `track_case_changes` /
`check_field_changes`; keys a given dict literal does not set are `none`. -/
structure ChangeEvent where
  type : String
  case_url : String
  case_number : Option JValue
  previous_case_number : Option JValue
  current_case_number : Option JValue
  field : Option String
  previous_value : Option JValue
  current_value : Option JValue
  tab_number : Option String
  timestamp : String
  message : String
  details : List String
deriving DecidableEq, Repr

/-- The per-case entry written into `self.current_state[case_key]`
(lines 101–115); this is also the shape read back as the previous state. -/
structure StoredSummary where
  last_check : String
  case_number : JValue
  content_hash : String
  tabs_hashes : List (String × String)
  tabs_content : List (String × JValue)
  case_data : List (String × JValue)
deriving DecidableEq, Repr

/-- First binding for a key in an association list. -/
def alookup {α : Type} (l : List (String × α)) (k : String) : Option α :=
  (l.find? (fun p => p.1 = k)).map (fun p => p.2)

/-- `case_data.get('tabs', ...).items()`: the tabs dict in insertion order.
A non-dict `tabs` value would raise on `.items()` in the source — unreachable
for parsed snapshots, mapped to the empty dict here. -/
def getTabs (case_data : List (String × JValue)) : List (String × JValue) :=
  match jgetD case_data "tabs" (.obj []) with
  | .obj l => l
  | _ => []

/-- `tab_data.get('raw_content', '')`; a non-dict `tab_data` would raise in
the source — unreachable, mapped to the default. -/
def rawContent (tab_data : JValue) : JValue :=
  match tab_data with
  | .obj l => jgetD l "raw_content" (.str "")
  | _ => .str ""

/-- Lines 101–115: the entry stored into `current_state`, with
`datetime.now().isoformat()` passed in as `now`. -/
def build_current_entry (case_data : List (String × JValue)) (now : String) : StoredSummary :=
  { last_check := now,
    case_number := jgetD case_data "case_number" (.str "N/A"),
    content_hash := calculate_content_hash (.obj case_data),
    tabs_hashes := (getTabs case_data).map (fun t => (t.1, calculate_content_hash (rawContent t.2))),
    tabs_content := (getTabs case_data).map (fun t => (t.1, rawContent t.2)),
    case_data := case_data }

/-- `CaseChangeTracker.get_field_name`. -/
def get_field_name (f : String) : String :=
  if f = "sub_category" then "Категория дела"
  else if f = "instance" then "Инстанция"
  else if f = "material_number" then "Материальный номер"
  else if f = "case_number" then "Номер дела"
  else if f = "judge" then "Судья"
  else if f = "date_of_receipt" then "Дата поступления"
  else if f = "result_of_consideration" then "Результат рассмотрения"
  else f

/-- Python `repr` of an embedded value (nested dicts render `repr`-style). -/
def pyRepr : JValue → String
  | .null => "None"
  | .bool b => if b then "True" else "False"
  | .str s => "'" ++ s ++ "'"
  | .obj l => "\x7b" ++ String.intercalate ", " (pyReprFields l) ++ "\x7d"
where pyReprFields : List (String × JValue) → List String
  | [] => []
  | (k, v) :: t => ("'" ++ k ++ "': " ++ pyRepr v) :: pyReprFields t

/-- Python `str()` as used by f-string interpolation of the stored values. -/
def pyStr : JValue → String
  | .str s => s
  | v => pyRepr v

/-- `CaseChangeTracker.get_field_change_message` (`is None` checks are
`.null` tests). -/
def get_field_change_message (f : String) (previous_value current_value : JValue) : String :=
  let field_name := get_field_name f
  if previous_value = .null ∧ current_value ≠ .null then
    "Поле '" ++ field_name ++ "': добавлено значение '" ++ pyStr current_value ++ "'"
  else if current_value = .null ∧ previous_value ≠ .null then
    "Поле '" ++ field_name ++ "': удалено значение '" ++ pyStr previous_value ++ "'"
  else if previous_value ≠ .null ∧ current_value ≠ .null then
    "Поле '" ++ field_name ++ "': изменено с '" ++ pyStr previous_value ++ "' на '"
      ++ pyStr current_value ++ "'"
  else "Поле '" ++ field_name ++ "': неопределенное изменение"

/-- The fixed `fields_to_check` list of `check_field_changes`. -/
def fields_to_check : List String :=
  ["sub_category", "instance", "material_number", "judge", "date_of_receipt",
   "result_of_consideration"]


/-- The `field_changed` dict of `check_field_changes` (lines 249–259). -/
def field_changed_event (case_url : String) (case_number : JValue) (f : String)
    (previous_value current_value : JValue) (now : String) : ChangeEvent :=
  { type := "field_changed",
    case_url := case_url,
    case_number := some case_number,
    previous_case_number := none,
    current_case_number := none,
    field := some f,
    previous_value := some previous_value,
    current_value := some current_value,
    tab_number := none,
    timestamp := now,
    message := "Изменено поле " ++ get_field_name f,
    details := [get_field_change_message f previous_value current_value] }

/-- `CaseChangeTracker.check_field_changes`: one `field_changed` event per
checked field whose value differs (`d.get(f)` gives `None`/`.null` for an
absent key). -/
def check_field_changes (case_url : String) (case_number : JValue)
    (current_data : List (String × JValue)) (previous_state : StoredSummary)
    (now : String) : List ChangeEvent :=
  let prev_data := previous_state.case_data
  fields_to_check.filterMap (fun f =>
    let current_value := jget current_data f
    let previous_value := jget prev_data f
    if pyEq current_value previous_value then none
    else some (field_changed_event case_url case_number f previous_value current_value now))

/-- The `new_case` dict (lines 119–126). -/
def new_case_event (case_url : String) (case_number : JValue) (now : String) : ChangeEvent :=
  { type := "new_case",
    case_url := case_url,
    case_number := some case_number,
    previous_case_number := none,
    current_case_number := none,
    field := none,
    previous_value := none,
    current_value := none,
    tab_number := none,
    timestamp := now,
    message := "Обнаружено новое дело",
    details := ["Дело добавлено в мониторинг"] }

/-- The `case_number_changed` dict (lines 136–144). -/
def case_number_changed_event (case_url : String) (prev_case_number case_number : JValue)
    (now : String) : ChangeEvent :=
  { type := "case_number_changed",
    case_url := case_url,
    case_number := none,
    previous_case_number := some prev_case_number,
    current_case_number := some case_number,
    field := none,
    previous_value := none,
    current_value := none,
    tab_number := none,
    timestamp := now,
    message := "Изменен номер дела",
    details := ["Номер дела изменен с \"" ++ pyStr prev_case_number ++ "\" на \""
      ++ pyStr case_number ++ "\""] }

/-- The `content_changed` dict (lines 155–162). -/
def content_changed_event (case_url : String) (case_number : JValue) (now : String) :
    ChangeEvent :=
  { type := "content_changed",
    case_url := case_url,
    case_number := some case_number,
    previous_case_number := none,
    current_case_number := none,
    field := none,
    previous_value := none,
    current_value := none,
    tab_number := none,
    timestamp := now,
    message := "Изменено содержимое дела",
    details := ["Общие изменения в структуре дела"] }

/-- The `new_tab` dict (lines 175–183). -/
def new_tab_event (case_url : String) (case_number : JValue) (tab_num now : String) :
    ChangeEvent :=
  { type := "new_tab",
    case_url := case_url,
    case_number := some case_number,
    previous_case_number := none,
    current_case_number := none,
    field := none,
    previous_value := none,
    current_value := none,
    tab_number := some tab_num,
    timestamp := now,
    message := "Добавлена новая вкладка " ++ tab_num,
    details := ["Вкладка " ++ tab_num ++ ": добавлено новое содержимое"] }

/-- The `removed_tab` dict (lines 190–198). -/
def removed_tab_event (case_url : String) (case_number : JValue) (tab_num now : String) :
    ChangeEvent :=
  { type := "removed_tab",
    case_url := case_url,
    case_number := some case_number,
    previous_case_number := none,
    current_case_number := none,
    field := none,
    previous_value := none,
    current_value := none,
    tab_number := some tab_num,
    timestamp := now,
    message := "Удалена вкладка " ++ tab_num,
    details := ["Вкладка " ++ tab_num ++ ": полностью удалена"] }

/-- The `tab_changed` dict (lines 213–221), with the placeholder detail line
when the text diff came back empty. -/
def tab_changed_event (case_url : String) (case_number : JValue) (tab_num : String)
    (text_changes : List String) (now : String) : ChangeEvent :=
  { type := "tab_changed",
    case_url := case_url,
    case_number := some case_number,
    previous_case_number := none,
    current_case_number := none,
    field := none,
    previous_value := none,
    current_value := none,
    tab_number := some tab_num,
    timestamp := now,
    message := "Изменено содержимое вкладки " ++ tab_num,
    details := if text_changes.isEmpty then
        ["Содержимое изменено (детали не определены)"]
      else text_changes }

/-- Lines 133–146 (ПЕРВОЕ): the case-number check — only when the stored
previous number is truthy. -/
def number_change_part (case_url : String) (case_number : JValue) (prev_state : StoredSummary)
    (now : String) : List ChangeEvent :=
  if prev_state.case_number.truthy && !pyEq case_number prev_state.case_number then
    [case_number_changed_event case_url prev_state.case_number case_number now]
  else []

/-- Lines 153–164 (ТРЕТЬЕ): the whole-snapshot hash check. -/
def content_change_part (case_url : String) (case_number : JValue)
    (prev_state cur : StoredSummary) (now : String) : List ChangeEvent :=
  if prev_state.content_hash ≠ cur.content_hash then
    [content_changed_event case_url case_number now]
  else []

/-- Lines 172–185: one `new_tab` event per key of `set(curr) - set(prev)`.
CPython iterates the set in hash order; here the current dict's insertion
order is the fixed determinization. -/
def new_tab_part (case_url : String) (case_number : JValue) (prev_state cur : StoredSummary)
    (now : String) : List ChangeEvent :=
  ((cur.tabs_hashes.map Prod.fst).filter
      (fun k => !(prev_state.tabs_hashes.map Prod.fst).contains k)).map
    (fun tab_num => new_tab_event case_url case_number tab_num now)

/-- Lines 187–200: one `removed_tab` event per key of `set(prev) - set(curr)`,
iterated in the previous dict's insertion order. -/
def removed_tab_part (case_url : String) (case_number : JValue)
    (prev_state cur : StoredSummary) (now : String) : List ChangeEvent :=
  ((prev_state.tabs_hashes.map Prod.fst).filter
      (fun k => !(cur.tabs_hashes.map Prod.fst).contains k)).map
    (fun tab_num => removed_tab_event case_url case_number tab_num now)

/-- Lines 202–223: for each key of `set(prev) & set(curr)` whose hashes
differ, a `tab_changed` event whose details come from the text diff of the
stored contents (`prev_tabs[k]` always hits, modelled by a defaulted lookup). -/
def changed_tab_part (case_url : String) (case_number : JValue)
    (prev_state cur : StoredSummary) (now : String) : List ChangeEvent :=
  ((prev_state.tabs_hashes.map Prod.fst).filter
      (fun k => (cur.tabs_hashes.map Prod.fst).contains k)).filterMap
    (fun tab_num =>
      if (alookup prev_state.tabs_hashes tab_num).getD ""
          ≠ (alookup cur.tabs_hashes tab_num).getD "" then
        let old_content := (alookup prev_state.tabs_content tab_num).getD (.str "")
        let new_content := (alookup cur.tabs_content tab_num).getD (.str "")
        let old_text := extract_text_content old_content
        let new_text := extract_text_content new_content
        let text_changes := compare_text_content old_text new_text
        some (tab_changed_event case_url case_number tab_num text_changes now)
      else none)

/-- `CaseChangeTracker.track_case_changes` (lines 93–225).  `previous_state`
is the loaded state dict, `now` stands for `datetime.now().isoformat()`.
The source appends each change to both `changes` and `detailed_changes`,
which therefore hold the same events; the single event list is returned.
The sequential appends become list concatenation in the source's order. -/
def track_case_changes (previous_state : List (String × StoredSummary))
    (case_url : String) (case_data : List (String × JValue)) (now : String) :
    List ChangeEvent :=
  let case_number := jgetD case_data "case_number" (.str "N/A")
  let cur := build_current_entry case_data now
  match alookup previous_state case_url with
  | none => [new_case_event case_url case_number now]
  | some prev_state =>
    number_change_part case_url case_number prev_state now
      ++ check_field_changes case_url case_number case_data prev_state now
      ++ content_change_part case_url case_number prev_state cur now
      ++ new_tab_part case_url case_number prev_state cur now
      ++ removed_tab_part case_url case_number prev_state cur now
      ++ changed_tab_part case_url case_number prev_state cur now

/-! ### The state file during `save_current_state` -/

/-- One file-level operation on the durable state file. -/
inductive FileOp where
  | truncate : FileOp
  | writeStr : String → FileOp
deriving DecidableEq, Repr

/-- Apply operations to the state file's current content: opening with mode
`'w'` truncates, each write appends. -/
def runOps (file : String) : List FileOp → String
  | [] => file
  | .truncate :: rest => runOps "" rest
  | .writeStr s :: rest => runOps (file ++ s) rest

/-- `CaseChangeTracker.save_current_state` (lines 43–50):
`open(self.state_file, 'w')` truncates the state file in place, then
`json.dump` streams the serialized state in chunks; there is no temporary
file and no rename.  An interrupted save is running only a prefix of these
operations. -/
def save_current_state_ops (chunks : List String) : List FileOp :=
  .truncate :: chunks.map .writeStr

/-- Modelled from the spec: the write-to-temp-then-rename discipline the spec
prescribes for `save_all` — the durable file changes only at the final atomic
rename, so an incomplete save leaves the old content in place. -/
def save_atomic (oldContent newContent : String) (completed : Bool) : String :=
  if completed then newContent else oldContent

/-! ### Helper lemmas about the tracker's parts -/

theorem pyEq_refl (a : JValue) : pyEq a a = true := by simp [pyEq]

theorem mem_number_change_part_iff {e : ChangeEvent} {u : String} {cn : JValue}
    {p : StoredSummary} {t : String} :
    e ∈ number_change_part u cn p t ↔
      (p.case_number.truthy && !pyEq cn p.case_number) = true
        ∧ e = case_number_changed_event u p.case_number cn t := by
  unfold number_change_part
  split <;> simp_all

theorem mem_content_change_part_iff {e : ChangeEvent} {u : String} {cn : JValue}
    {p c : StoredSummary} {t : String} :
    e ∈ content_change_part u cn p c t ↔
      p.content_hash ≠ c.content_hash ∧ e = content_changed_event u cn t := by
  unfold content_change_part
  split <;> simp_all

theorem mem_new_tab_part_iff {e : ChangeEvent} {u : String} {cn : JValue}
    {p c : StoredSummary} {t : String} :
    e ∈ new_tab_part u cn p c t ↔
      ∃ k, k ∈ c.tabs_hashes.map Prod.fst
        ∧ (p.tabs_hashes.map Prod.fst).contains k = false
        ∧ e = new_tab_event u cn k t := by
  unfold new_tab_part
  constructor
  · intro h
    rcases List.mem_map.mp h with ⟨k, hk, he⟩
    rcases List.mem_filter.mp hk with ⟨hk1, hk2⟩
    exact ⟨k, hk1, by simpa using hk2, he.symm⟩
  · rintro ⟨k, hk1, hk2, he⟩
    exact List.mem_map.mpr ⟨k, List.mem_filter.mpr ⟨hk1, by simpa using hk2⟩, he.symm⟩

theorem mem_removed_tab_part_iff {e : ChangeEvent} {u : String} {cn : JValue}
    {p c : StoredSummary} {t : String} :
    e ∈ removed_tab_part u cn p c t ↔
      ∃ k, k ∈ p.tabs_hashes.map Prod.fst
        ∧ (c.tabs_hashes.map Prod.fst).contains k = false
        ∧ e = removed_tab_event u cn k t := by
  unfold removed_tab_part
  constructor
  · intro h
    rcases List.mem_map.mp h with ⟨k, hk, he⟩
    rcases List.mem_filter.mp hk with ⟨hk1, hk2⟩
    exact ⟨k, hk1, by simpa using hk2, he.symm⟩
  · rintro ⟨k, hk1, hk2, he⟩
    exact List.mem_map.mpr ⟨k, List.mem_filter.mpr ⟨hk1, by simpa using hk2⟩, he.symm⟩

theorem mem_check_field_changes_iff {e : ChangeEvent} {u : String} {cn : JValue}
    {cd : List (String × JValue)} {p : StoredSummary} {t : String} :
    e ∈ check_field_changes u cn cd p t ↔
      ∃ f, f ∈ fields_to_check ∧ pyEq (jget cd f) (jget p.case_data f) = false
        ∧ e = field_changed_event u cn f (jget p.case_data f) (jget cd f) t := by
  unfold check_field_changes
  simp only [List.mem_filterMap]
  constructor
  · rintro ⟨f, hf, hsome⟩
    split at hsome
    · exact absurd hsome (by simp)
    · refine ⟨f, hf, by simp_all, by simp_all⟩
  · rintro ⟨f, hf, hne, he⟩
    refine ⟨f, hf, ?_⟩
    rw [hne]
    simpa using he.symm

theorem shape_of_mem_changed_tab_part {e : ChangeEvent} {u : String} {cn : JValue}
    {p c : StoredSummary} {t : String} (h : e ∈ changed_tab_part u cn p c t) :
    ∃ k tc, e = tab_changed_event u cn k tc t := by
  unfold changed_tab_part at h
  simp only [List.mem_filterMap] at h
  obtain ⟨k, _, hsome⟩ := h
  split at hsome
  · exact ⟨k, _, by simpa using hsome.symm⟩
  · exact absurd hsome (by simp)

/-- `track_case_changes` on a tracked identity is the concatenation of the
five comparison steps, in source order. -/
theorem track_eq_of_some (previous_state : List (String × StoredSummary)) (case_url : String)
    (case_data : List (String × JValue)) (now : String) (prev_state : StoredSummary)
    (h : alookup previous_state case_url = some prev_state) :
    track_case_changes previous_state case_url case_data now =
      number_change_part case_url (jgetD case_data "case_number" (.str "N/A")) prev_state now
        ++ check_field_changes case_url (jgetD case_data "case_number" (.str "N/A"))
            case_data prev_state now
        ++ content_change_part case_url (jgetD case_data "case_number" (.str "N/A"))
            prev_state (build_current_entry case_data now) now
        ++ new_tab_part case_url (jgetD case_data "case_number" (.str "N/A"))
            prev_state (build_current_entry case_data now) now
        ++ removed_tab_part case_url (jgetD case_data "case_number" (.str "N/A"))
            prev_state (build_current_entry case_data now) now
        ++ changed_tab_part case_url (jgetD case_data "case_number" (.str "N/A"))
            prev_state (build_current_entry case_data now) now := by
  simp only [track_case_changes, h]

theorem filter_not_contains_self (l : List String) :
    l.filter (fun k => !l.contains k) = [] := by
  rw [List.filter_eq_nil_iff]
  intro a ha
  simp [ha]

/-- C1: for an identity absent from the stored previous state,
`track_case_changes` returns exactly one event — the `new_case` event (the
spec's `new_record` kind) — immediately, whatever the current snapshot
holds; no field, content, or tab events are emitted. -/
theorem new_record_law (previous_state : List (String × StoredSummary)) (case_url : String)
    (case_data : List (String × JValue)) (now : String)
    (h : alookup previous_state case_url = none) :
    track_case_changes previous_state case_url case_data now =
        [new_case_event case_url (jgetD case_data "case_number" (.str "N/A")) now]
      ∧ (new_case_event case_url (jgetD case_data "case_number" (.str "N/A")) now).type
          = "new_case" := by
  constructor
  · simp only [track_case_changes, h]
  · rfl

theorem new_record_law_witness :
    track_case_changes [] "u" [("case_number", JValue.str "N-1")] "t" =
        [new_case_event "u" (JValue.str "N-1") "t"]
      ∧ (new_case_event "u" (JValue.str "N-1") "t").type = "new_case" :=
  new_record_law [] "u" [("case_number", JValue.str "N-1")] "t" rfl

/-- C3: no-change law — when the stored summary for the identity is exactly
the summary the tracker derives from the current snapshot, no field value
differs, the whole-snapshot hash agrees, and the tab key sets and per-tab
hashes coincide, so `track_case_changes` returns the empty list. -/
theorem no_change_law (previous_state : List (String × StoredSummary)) (case_url : String)
    (case_data : List (String × JValue)) (now0 now : String)
    (h : alookup previous_state case_url = some (build_current_entry case_data now0)) :
    track_case_changes previous_state case_url case_data now = [] := by
  rw [track_eq_of_some previous_state case_url case_data now _ h]
  have hnum : number_change_part case_url (jgetD case_data "case_number" (.str "N/A"))
      (build_current_entry case_data now0) now = [] := by
    unfold number_change_part
    simp [build_current_entry, pyEq_refl]
  have hfld : check_field_changes case_url (jgetD case_data "case_number" (.str "N/A"))
      case_data (build_current_entry case_data now0) now = [] := by
    unfold check_field_changes
    rw [List.filterMap_eq_nil_iff]
    intro f _
    simp [build_current_entry, pyEq_refl]
  have hcnt : content_change_part case_url (jgetD case_data "case_number" (.str "N/A"))
      (build_current_entry case_data now0) (build_current_entry case_data now) now = [] := by
    unfold content_change_part
    simp [build_current_entry]
  have hnew : new_tab_part case_url (jgetD case_data "case_number" (.str "N/A"))
      (build_current_entry case_data now0) (build_current_entry case_data now) now = [] := by
    unfold new_tab_part
    simp only [build_current_entry, List.map_map]
    rw [filter_not_contains_self]
    rfl
  have hrem : removed_tab_part case_url (jgetD case_data "case_number" (.str "N/A"))
      (build_current_entry case_data now0) (build_current_entry case_data now) now = [] := by
    unfold removed_tab_part
    simp only [build_current_entry, List.map_map]
    rw [filter_not_contains_self]
    rfl
  have hchg : changed_tab_part case_url (jgetD case_data "case_number" (.str "N/A"))
      (build_current_entry case_data now0) (build_current_entry case_data now) now = [] := by
    unfold changed_tab_part
    rw [List.filterMap_eq_nil_iff]
    intro k _
    simp [build_current_entry]
  rw [hnum, hfld, hcnt, hnew, hrem, hchg]
  rfl

theorem no_change_law_witness :
    track_case_changes [("u", build_current_entry [("judge", JValue.str "X")] "t0")] "u"
      [("judge", JValue.str "X")] "t1" = [] :=
  no_change_law [("u", build_current_entry [("judge", JValue.str "X")] "t0")] "u"
    [("judge", JValue.str "X")] "t0" "t1" rfl

/-- C7 counterexample: `save_current_state` opens the state file with mode
`'w'`, which truncates it before any byte of the new state is written;
interrupting right after the open leaves the file empty — the previously
durable state is destroyed, not untouched. -/
theorem save_untouched_counterexample :
    runOps "OLD-STATE" ((save_current_state_ops ["NEW-STATE"]).take 1) = ""
      ∧ runOps "OLD-STATE" ((save_current_state_ops ["NEW-STATE"]).take 1) ≠ "OLD-STATE"
      ∧ save_atomic "OLD-STATE" "NEW-STATE" false = "OLD-STATE" := by
  refine ⟨rfl, ?_, rfl⟩
  decide

theorem string_foldl_append (l : List String) :
    ∀ a : String, l.foldl (fun r s => r ++ s) a = a ++ String.join l := by
  induction l with
  | nil => intro a; exact (String.append_empty a).symm
  | cons s t ih =>
    intro a
    show t.foldl (fun r s2 => r ++ s2) (a ++ s) = a ++ String.join (s :: t)
    rw [ih (a ++ s), String.append_assoc]
    congr 1
    have h2 : String.join (s :: t) = t.foldl (fun r s2 => r ++ s2) ("" ++ s) := rfl
    rw [h2, String.empty_append, ih s]

theorem runOps_map_writeStr (acc : String) (l : List String) :
    runOps acc (l.map FileOp.writeStr) = acc ++ String.join l := by
  induction l generalizing acc with
  | nil => exact (String.append_empty acc).symm
  | cons s t ih =>
    show runOps (acc ++ s) (t.map FileOp.writeStr) = acc ++ String.join (s :: t)
    rw [ih (acc ++ s), String.append_assoc]
    congr 1
    have h2 : String.join (s :: t) = t.foldl (fun r s2 => r ++ s2) ("" ++ s) := rfl
    rw [h2, String.empty_append, string_foldl_append t s]

/-- C7 amended: the save is a truncating in-place write, not
write-to-temp-then-rename — once the save has started (`1 ≤ k` operations
performed), the state file holds exactly the already-written prefix of the
new serialization; the old content survives nowhere.  A completed save
leaves the full new serialization. -/
theorem save_direct_write_behavior (old : String) (chunks : List String) (k : Nat)
    (h : 1 ≤ k) :
    runOps old ((save_current_state_ops chunks).take k)
        = String.join (chunks.take (k - 1))
      ∧ runOps old (save_current_state_ops chunks) = String.join chunks := by
  constructor
  · match k, h with
    | Nat.succ n, _ =>
      have h1 : (save_current_state_ops chunks).take (n + 1) =
          FileOp.truncate :: (chunks.map FileOp.writeStr).take n := rfl
      rw [h1]
      have h2 : runOps old (FileOp.truncate :: (chunks.map FileOp.writeStr).take n) =
          runOps "" ((chunks.map FileOp.writeStr).take n) := rfl
      rw [h2, ← List.map_take, runOps_map_writeStr, String.empty_append]
      rfl
  · have h2 : runOps old (save_current_state_ops chunks) =
        runOps "" (chunks.map FileOp.writeStr) := rfl
    rw [h2, runOps_map_writeStr, String.empty_append]

theorem save_direct_write_behavior_witness :
    1 ≤ 2
      ∧ (runOps "OLD" ((save_current_state_ops ["AB", "CD"]).take 2)
            = String.join (["AB", "CD"].take 1)
        ∧ runOps "OLD" (save_current_state_ops ["AB", "CD"]) = String.join ["AB", "CD"]) :=
  ⟨by decide, save_direct_write_behavior "OLD" ["AB", "CD"] 2 (by decide)⟩

theorem filter_false_of_mem {p : ChangeEvent → Bool} {l : List ChangeEvent}
    (h : ∀ e ∈ l, p e = false) : l.filter p = [] := by
  rw [List.filter_eq_nil_iff]
  intro a ha
  simp [h a ha]

/-- C8: every change event the tracker emits carries a non-empty `details`
list; in particular a changed tab whose text diff is empty gets the single
placeholder detail line. -/
theorem details_nonempty (previous_state : List (String × StoredSummary)) (case_url : String)
    (case_data : List (String × JValue)) (now : String) (e : ChangeEvent)
    (h : e ∈ track_case_changes previous_state case_url case_data now) :
    e.details ≠ [] := by
  cases halk : alookup previous_state case_url with
  | none =>
    simp only [track_case_changes, halk, List.mem_singleton] at h
    subst h
    simp [new_case_event]
  | some p =>
    rw [track_eq_of_some previous_state case_url case_data now p halk] at h
    simp only [List.append_assoc, List.mem_append] at h
    rcases h with h | h | h | h | h | h
    · rcases mem_number_change_part_iff.mp h with ⟨_, rfl⟩
      simp [case_number_changed_event]
    · rcases mem_check_field_changes_iff.mp h with ⟨f, _, _, rfl⟩
      simp [field_changed_event]
    · rcases mem_content_change_part_iff.mp h with ⟨_, rfl⟩
      simp [content_changed_event]
    · rcases mem_new_tab_part_iff.mp h with ⟨k, _, _, rfl⟩
      simp [new_tab_event]
    · rcases mem_removed_tab_part_iff.mp h with ⟨k, _, _, rfl⟩
      simp [removed_tab_event]
    · rcases shape_of_mem_changed_tab_part h with ⟨k, tc, rfl⟩
      cases tc <;> simp [tab_changed_event]

theorem details_nonempty_witness :
    tab_changed_event "u" (JValue.str "N/A") "1" [] "t1" ∈
        track_case_changes
          [("u", build_current_entry
              [("tabs", JValue.obj [("1", JValue.obj [("raw_content", JValue.str "<b>x</b>")])])]
              "t0")]
          "u" [("tabs", JValue.obj [("1", JValue.obj [("raw_content", JValue.str "<i>x</i>")])])]
          "t1"
      ∧ (tab_changed_event "u" (JValue.str "N/A") "1" [] "t1").details ≠ [] :=
  ⟨by decide,
   details_nonempty
     [("u", build_current_entry
         [("tabs", JValue.obj [("1", JValue.obj [("raw_content", JValue.str "<b>x</b>")])])]
         "t0")]
     "u" [("tabs", JValue.obj [("1", JValue.obj [("raw_content", JValue.str "<i>x</i>")])])]
     "t1" (tab_changed_event "u" (JValue.str "N/A") "1" [] "t1") (by decide)⟩

/-- C10: implicit behavior around the case number — (a) a falsy stored
number (`None`, absent, or the empty string) suppresses the
`case_number_changed` event even when the current number differs; (b) a
current snapshot with no `case_number` key gets the literal `"N/A"`
substituted, so a disappearing case number is reported as a change to
`"N/A"` (when the stored number is truthy and differs from `"N/A"`). -/
theorem case_number_fallback (previous_state : List (String × StoredSummary))
    (case_url : String) (case_data : List (String × JValue)) (now : String)
    (prev_state : StoredSummary)
    (h : alookup previous_state case_url = some prev_state) :
    (prev_state.case_number.truthy = false →
      (track_case_changes previous_state case_url case_data now).filter
        (fun e => e.type == "case_number_changed") = [])
    ∧ (case_data.find? (fun p => p.1 = "case_number") = none →
        prev_state.case_number.truthy = true →
        pyEq (JValue.str "N/A") prev_state.case_number = false →
        (track_case_changes previous_state case_url case_data now).head? =
          some (case_number_changed_event case_url prev_state.case_number
            (JValue.str "N/A") now)) := by
  constructor
  · intro htruthy
    rw [track_eq_of_some previous_state case_url case_data now prev_state h]
    simp only [List.filter_append, List.append_eq_nil]
    refine ⟨⟨⟨⟨⟨?_, ?_⟩, ?_⟩, ?_⟩, ?_⟩, ?_⟩
    · unfold number_change_part
      rw [htruthy]
      simp
    · exact filter_false_of_mem (by
        intro e he
        rcases mem_check_field_changes_iff.mp he with ⟨f, _, _, rfl⟩
        rfl)
    · exact filter_false_of_mem (by
        intro e he
        rcases mem_content_change_part_iff.mp he with ⟨_, rfl⟩
        rfl)
    · exact filter_false_of_mem (by
        intro e he
        rcases mem_new_tab_part_iff.mp he with ⟨k, _, _, rfl⟩
        rfl)
    · exact filter_false_of_mem (by
        intro e he
        rcases mem_removed_tab_part_iff.mp he with ⟨k, _, _, rfl⟩
        rfl)
    · exact filter_false_of_mem (by
        intro e he
        rcases shape_of_mem_changed_tab_part he with ⟨k, tc, rfl⟩
        rfl)
  · intro habs htruthy hne
    have hcn : jgetD case_data "case_number" (.str "N/A") = JValue.str "N/A" := by
      unfold jgetD
      rw [habs]
    rw [track_eq_of_some previous_state case_url case_data now prev_state h, hcn]
    have h1 : number_change_part case_url (JValue.str "N/A") prev_state now =
        [case_number_changed_event case_url prev_state.case_number (JValue.str "N/A") now] := by
      unfold number_change_part
      rw [htruthy, hne]
      rfl
    rw [h1]
    rfl

def prevFalsyNumber : StoredSummary :=
  { last_check := "t0", case_number := JValue.null, content_hash := "h",
    tabs_hashes := [], tabs_content := [], case_data := [] }

def prevTruthyNumber : StoredSummary :=
  { last_check := "t0", case_number := JValue.str "OLD", content_hash := "h",
    tabs_hashes := [], tabs_content := [], case_data := [] }

theorem case_number_fallback_witness :
    ((track_case_changes [("u", prevFalsyNumber)] "u" [("case_number", JValue.str "X")] "t").filter
        (fun e => e.type == "case_number_changed") = [])
    ∧ ((track_case_changes [("u", prevTruthyNumber)] "u" [] "t").head? =
        some (case_number_changed_event "u" (JValue.str "OLD") (JValue.str "N/A") "t")) :=
  ⟨(case_number_fallback [("u", prevFalsyNumber)] "u" [("case_number", JValue.str "X")] "t"
      prevFalsyNumber rfl).1 rfl,
   (case_number_fallback [("u", prevTruthyNumber)] "u" [] "t" prevTruthyNumber rfl).2
      rfl rfl (by decide)⟩

/-- C4 counterexample: the events embed the invocation time
(`datetime.now().isoformat()`), so two invocations of the tracker on the
same fixed pair of inputs at different times return different event
sequences — the output is not invocation-invariant as claimed. -/
theorem detect_not_invocation_invariant :
    track_case_changes [] "u" [] "t1" ≠ track_case_changes [] "u" [] "t2" := by
  decide

/-- Erase the only time-dependent field of an event. -/
def eraseTime (e : ChangeEvent) : ChangeEvent := { e with timestamp := "" }

/-- C4 amended: for a fixed pair (previous state, current snapshot) and a
fixed invocation time the tracker is a pure function, and across invocation
times the event sequences agree except in each event's `timestamp` field —
same events, same order, same content otherwise.  (Tab-set iteration is
modelled here in dict insertion order, a fixed determinization of CPython's
hash-order set iteration.) -/
theorem detect_deterministic_up_to_timestamp (previous_state : List (String × StoredSummary))
    (case_url : String) (case_data : List (String × JValue)) (t1 t2 : String) :
    (track_case_changes previous_state case_url case_data t1).map eraseTime =
      (track_case_changes previous_state case_url case_data t2).map eraseTime := by
  cases h : alookup previous_state case_url with
  | none => simp only [track_case_changes, h]; rfl
  | some p =>
    rw [track_eq_of_some previous_state case_url case_data t1 p h,
      track_eq_of_some previous_state case_url case_data t2 p h]
    simp only [List.map_append]
    have hnum : (number_change_part case_url (jgetD case_data "case_number" (.str "N/A")) p t1).map
        eraseTime = (number_change_part case_url (jgetD case_data "case_number" (.str "N/A")) p t2).map
        eraseTime := by
      unfold number_change_part
      split <;> rfl
    have hfld : (check_field_changes case_url (jgetD case_data "case_number" (.str "N/A"))
        case_data p t1).map eraseTime =
        (check_field_changes case_url (jgetD case_data "case_number" (.str "N/A"))
          case_data p t2).map eraseTime := by
      unfold check_field_changes
      rw [List.map_filterMap, List.map_filterMap]
      congr 1
      funext f
      cases hc : pyEq (jget case_data f) (jget p.case_data f) <;> simp only [hc] <;> rfl
    have hcnt : ∀ c1 c2 : StoredSummary, c1.content_hash = c2.content_hash →
        (content_change_part case_url (jgetD case_data "case_number" (.str "N/A")) p c1 t1).map
          eraseTime =
        (content_change_part case_url (jgetD case_data "case_number" (.str "N/A")) p c2 t2).map
          eraseTime := by
      intro c1 c2 hcc
      unfold content_change_part
      rw [hcc]
      split <;> rfl
    have hnew : ∀ c1 c2 : StoredSummary, c1.tabs_hashes = c2.tabs_hashes →
        (new_tab_part case_url (jgetD case_data "case_number" (.str "N/A")) p c1 t1).map
          eraseTime =
        (new_tab_part case_url (jgetD case_data "case_number" (.str "N/A")) p c2 t2).map
          eraseTime := by
      intro c1 c2 hcc
      unfold new_tab_part
      rw [hcc, List.map_map, List.map_map]
      rfl
    have hrem : ∀ c1 c2 : StoredSummary, c1.tabs_hashes = c2.tabs_hashes →
        (removed_tab_part case_url (jgetD case_data "case_number" (.str "N/A")) p c1 t1).map
          eraseTime =
        (removed_tab_part case_url (jgetD case_data "case_number" (.str "N/A")) p c2 t2).map
          eraseTime := by
      intro c1 c2 hcc
      unfold removed_tab_part
      rw [hcc, List.map_map, List.map_map]
      rfl
    have hchg : ∀ c1 c2 : StoredSummary, c1.tabs_hashes = c2.tabs_hashes →
        c1.tabs_content = c2.tabs_content →
        (changed_tab_part case_url (jgetD case_data "case_number" (.str "N/A")) p c1 t1).map
          eraseTime =
        (changed_tab_part case_url (jgetD case_data "case_number" (.str "N/A")) p c2 t2).map
          eraseTime := by
      intro c1 c2 hcc hct
      unfold changed_tab_part
      rw [hcc, hct, List.map_filterMap, List.map_filterMap]
      congr 1
      funext k
      by_cases hc : (alookup p.tabs_hashes k).getD ""
          ≠ (alookup c2.tabs_hashes k).getD ""
      · rw [if_pos hc, if_pos hc]
        rfl
      · rw [if_neg hc, if_neg hc]
    rw [hnum, hfld, hcnt (build_current_entry case_data t1) (build_current_entry case_data t2) rfl,
      hnew (build_current_entry case_data t1) (build_current_entry case_data t2) rfl,
      hrem (build_current_entry case_data t1) (build_current_entry case_data t2) rfl,
      hchg (build_current_entry case_data t1) (build_current_entry case_data t2) rfl rfl]

theorem key_filter_of_nodup (l : List String) (hn : l.Nodup) (f : String)
    (g : String → Option ChangeEvent)
    (hg : ∀ s e, g s = some e → e.type = "field_changed" ∧ e.field = some s) :
    (l.filterMap g).filter (fun e => e.type == "field_changed" && e.field == some f)
      = if f ∈ l then (g f).toList else [] := by
  induction l with
  | nil => simp
  | cons s t ih =>
    rcases List.nodup_cons.mp hn with ⟨hst, hnt⟩
    rw [List.filterMap_cons]
    by_cases hsf : s = f
    · subst hsf
      have hrest : (t.filterMap g).filter
          (fun e => e.type == "field_changed" && e.field == some s) = [] := by
        rw [ih hnt]
        simp [hst]
      cases hgs : g s with
      | none =>
        rw [hrest]
        simp [hgs]
      | some e =>
        rcases hg s e hgs with ⟨ht, hf⟩
        rw [List.filter_cons]
        simp only [ht, hf]
        rw [hrest]
        simp [hgs]
    · cases hgs : g s with
      | none =>
        rw [ih hnt]
        simp [Ne.symm hsf]
      | some e =>
        rcases hg s e hgs with ⟨ht, hf⟩
        rw [List.filter_cons]
        have : (e.type == "field_changed" && e.field == some f) = false := by
          simp [ht, hf, hsf]
        rw [this, if_neg (by simp)]
        rw [ih hnt]
        simp [Ne.symm hsf]

/-- C2 counterexample: the claim quantifies over every field in the union of
the two snapshots' key sets, but `check_field_changes` only inspects the
fixed six-element `fields_to_check` list.  The field `uid` is present in
both snapshots with different values (a value replacement), yet the tracker
emits no `field_changed` event at all. -/
theorem field_union_law_counterexample :
    jget [("uid", JValue.str "a")] "uid" ≠ jget [("uid", JValue.str "b")] "uid"
      ∧ (track_case_changes [("u", build_current_entry [("uid", JValue.str "a")] "t0")] "u"
          [("uid", JValue.str "b")] "t1").filter (fun e => e.type == "field_changed") = [] := by
  constructor
  · decide
  · decide

/-- C2 amended: field-level diffing ranges over the fixed `fields_to_check`
list (`sub_category`, `instance`, `material_number`, `judge`,
`date_of_receipt`, `result_of_consideration`), not the union of key sets:
for a checked field, exactly one `field_changed` event is emitted iff the
current and stored values differ (an absent key reads as `None`, covering
добавление/удаление/замена), and no `field_changed` event ever names a field
outside that list, even when its value changed. -/
theorem field_union_law_amended (previous_state : List (String × StoredSummary))
    (case_url : String) (case_data : List (String × JValue)) (now : String)
    (prev_state : StoredSummary) (f : String)
    (h : alookup previous_state case_url = some prev_state) :
    (track_case_changes previous_state case_url case_data now).filter
        (fun e => e.type == "field_changed" && e.field == some f)
      = if f ∈ fields_to_check
            ∧ pyEq (jget case_data f) (jget prev_state.case_data f) = false
        then [field_changed_event case_url (jgetD case_data "case_number" (.str "N/A")) f
                (jget prev_state.case_data f) (jget case_data f) now]
        else [] := by
  rw [track_eq_of_some previous_state case_url case_data now prev_state h]
  simp only [List.filter_append]
  have h1 : (number_change_part case_url (jgetD case_data "case_number" (.str "N/A"))
      prev_state now).filter (fun e => e.type == "field_changed" && e.field == some f) = [] :=
    filter_false_of_mem (by
      intro e he
      rcases mem_number_change_part_iff.mp he with ⟨_, rfl⟩
      rfl)
  have h3 : ∀ c : StoredSummary, (content_change_part case_url
      (jgetD case_data "case_number" (.str "N/A")) prev_state c now).filter
      (fun e => e.type == "field_changed" && e.field == some f) = [] := fun c =>
    filter_false_of_mem (by
      intro e he
      rcases mem_content_change_part_iff.mp he with ⟨_, rfl⟩
      rfl)
  have h4 : ∀ c : StoredSummary, (new_tab_part case_url
      (jgetD case_data "case_number" (.str "N/A")) prev_state c now).filter
      (fun e => e.type == "field_changed" && e.field == some f) = [] := fun c =>
    filter_false_of_mem (by
      intro e he
      rcases mem_new_tab_part_iff.mp he with ⟨k, _, _, rfl⟩
      rfl)
  have h5 : ∀ c : StoredSummary, (removed_tab_part case_url
      (jgetD case_data "case_number" (.str "N/A")) prev_state c now).filter
      (fun e => e.type == "field_changed" && e.field == some f) = [] := fun c =>
    filter_false_of_mem (by
      intro e he
      rcases mem_removed_tab_part_iff.mp he with ⟨k, _, _, rfl⟩
      rfl)
  have h6 : ∀ c : StoredSummary, (changed_tab_part case_url
      (jgetD case_data "case_number" (.str "N/A")) prev_state c now).filter
      (fun e => e.type == "field_changed" && e.field == some f) = [] := fun c =>
    filter_false_of_mem (by
      intro e he
      rcases shape_of_mem_changed_tab_part he with ⟨k, tc, rfl⟩
      rfl)
  rw [h1, h3, h4, h5, h6]
  have h2 : (check_field_changes case_url (jgetD case_data "case_number" (.str "N/A"))
      case_data prev_state now).filter
        (fun e => e.type == "field_changed" && e.field == some f)
      = if f ∈ fields_to_check
            ∧ pyEq (jget case_data f) (jget prev_state.case_data f) = false
        then [field_changed_event case_url (jgetD case_data "case_number" (.str "N/A")) f
                (jget prev_state.case_data f) (jget case_data f) now]
        else [] := by
    unfold check_field_changes
    rw [key_filter_of_nodup fields_to_check (by decide) f _ (by
      intro s e hse
      dsimp only at hse
      split at hse
      · exact absurd hse (by simp)
      · rw [Option.some_inj] at hse
        exact ⟨by rw [← hse]; rfl, by rw [← hse]; rfl⟩)]
    by_cases hmem : f ∈ fields_to_check
    · rw [if_pos hmem]
      cases hpe : pyEq (jget case_data f) (jget prev_state.case_data f) with
      | true => simp [hpe, hmem]
      | false => simp [hpe, hmem]
    · rw [if_neg hmem, if_neg (by simp [hmem])]
  rw [h2]
  simp

theorem field_union_law_amended_witness :
    (track_case_changes [("u", build_current_entry [("judge", JValue.str "A. Ivanov")] "t0")] "u"
        [("judge", JValue.str "B. Petrov")] "t1").filter
        (fun e => e.type == "field_changed" && e.field == some "judge")
      = if "judge" ∈ fields_to_check
            ∧ pyEq (jget [("judge", JValue.str "B. Petrov")] "judge")
                (jget (build_current_entry [("judge", JValue.str "A. Ivanov")] "t0").case_data
                  "judge") = false
        then [field_changed_event "u" (JValue.str "N/A") "judge"
                (jget (build_current_entry [("judge", JValue.str "A. Ivanov")] "t0").case_data
                  "judge")
                (jget [("judge", JValue.str "B. Petrov")] "judge") "t1"]
        else [] :=
  field_union_law_amended [("u", build_current_entry [("judge", JValue.str "A. Ivanov")] "t0")]
    "u" [("judge", JValue.str "B. Petrov")] "t1"
    (build_current_entry [("judge", JValue.str "A. Ivanov")] "t0") "judge" rfl

theorem count_filter_nodup (l : List String) (hn : l.Nodup) (p : String → Bool) (s : String) :
    (l.filter p).count s = if s ∈ l ∧ p s = true then 1 else 0 := by
  induction l with
  | nil => simp
  | cons a t ih =>
    rcases List.nodup_cons.mp hn with ⟨hat, hnt⟩
    rw [List.filter_cons]
    by_cases hsa : s = a
    · subst hsa
      have hnm : ¬(s ∈ t ∧ p s = true) := fun hc => hat hc.1
      cases hps : p s with
      | true => simp [hps, ih hnt, hnm, hat]
      | false => simp [hps, ih hnt, hnm, hat]
    · have hmem : (s ∈ a :: t ∧ p s = true) ↔ (s ∈ t ∧ p s = true) := by
        constructor
        · rintro ⟨hm, hp⟩
          rcases List.mem_cons.mp hm with rfl | hm2
          · exact absurd rfl hsa
          · exact ⟨hm2, hp⟩
        · rintro ⟨hm, hp⟩
          exact ⟨List.mem_cons_of_mem a hm, hp⟩
      cases hpa : p a with
      | true => simp [hpa, List.count_cons, hsa, ih hnt]
      | false => simp [hpa, ih hnt, hsa]

theorem filterMap_tab_number_new (u : String) (cn : JValue) (p c : StoredSummary) (t : String) :
    (new_tab_part u cn p c t).filterMap
        (fun e => if e.type == "new_tab" then e.tab_number else none)
      = (c.tabs_hashes.map Prod.fst).filter
          (fun k => !(p.tabs_hashes.map Prod.fst).contains k) := by
  unfold new_tab_part
  rw [List.filterMap_map]
  have hcomp : ((fun e : ChangeEvent => if e.type == "new_tab" then e.tab_number else none)
      ∘ (fun tab_num => new_tab_event u cn tab_num t)) = some := funext fun k => rfl
  rw [hcomp, List.filterMap_some]

theorem filterMap_tab_number_removed (u : String) (cn : JValue) (p c : StoredSummary)
    (t : String) :
    (removed_tab_part u cn p c t).filterMap
        (fun e => if e.type == "removed_tab" then e.tab_number else none)
      = (p.tabs_hashes.map Prod.fst).filter
          (fun k => !(c.tabs_hashes.map Prod.fst).contains k) := by
  unfold removed_tab_part
  rw [List.filterMap_map]
  have hcomp : ((fun e : ChangeEvent => if e.type == "removed_tab" then e.tab_number else none)
      ∘ (fun tab_num => removed_tab_event u cn tab_num t)) = some := funext fun k => rfl
  rw [hcomp, List.filterMap_some]

theorem filterMap_nil_of_none {f : ChangeEvent → Option String} {l : List ChangeEvent}
    (h : ∀ e ∈ l, f e = none) : l.filterMap f = [] :=
  List.filterMap_eq_nil_iff.mpr h

/-- C5: on a tracked identity, the `new_tab` events carry exactly the tab
identifiers of `set(curr) - set(prev)` and the `removed_tab` events exactly
those of `set(prev) - set(curr)` — one event per identifier of the symmetric
difference, none for identifiers present in both. -/
theorem section_symmetric_difference_law (previous_state : List (String × StoredSummary))
    (case_url : String) (case_data : List (String × JValue)) (now : String)
    (prev_state : StoredSummary) (s : String)
    (h : alookup previous_state case_url = some prev_state)
    (hn1 : ((build_current_entry case_data now).tabs_hashes.map Prod.fst).Nodup)
    (hn2 : (prev_state.tabs_hashes.map Prod.fst).Nodup) :
    ((track_case_changes previous_state case_url case_data now).filterMap
        (fun e => if e.type == "new_tab" then e.tab_number else none)).count s
      = (if s ∈ (build_current_entry case_data now).tabs_hashes.map Prod.fst
            ∧ s ∉ prev_state.tabs_hashes.map Prod.fst then 1 else 0)
    ∧ ((track_case_changes previous_state case_url case_data now).filterMap
        (fun e => if e.type == "removed_tab" then e.tab_number else none)).count s
      = (if s ∈ prev_state.tabs_hashes.map Prod.fst
            ∧ s ∉ (build_current_entry case_data now).tabs_hashes.map Prod.fst
         then 1 else 0) := by
  rw [track_eq_of_some previous_state case_url case_data now prev_state h]
  simp only [List.filterMap_append]
  have hnum : ∀ ty : String, (number_change_part case_url
      (jgetD case_data "case_number" (.str "N/A")) prev_state now).filterMap
      (fun e => if e.type == ty then e.tab_number else none) = [] := fun ty =>
    filterMap_nil_of_none (by
      intro e he
      rcases mem_number_change_part_iff.mp he with ⟨_, rfl⟩
      simp [case_number_changed_event])
  have hfld : ∀ ty : String, (check_field_changes case_url
      (jgetD case_data "case_number" (.str "N/A")) case_data prev_state now).filterMap
      (fun e => if e.type == ty then e.tab_number else none) = [] := fun ty =>
    filterMap_nil_of_none (by
      intro e he
      rcases mem_check_field_changes_iff.mp he with ⟨f, _, _, rfl⟩
      simp [field_changed_event])
  have hcnt : ∀ ty : String, (content_change_part case_url
      (jgetD case_data "case_number" (.str "N/A")) prev_state
      (build_current_entry case_data now) now).filterMap
      (fun e => if e.type == ty then e.tab_number else none) = [] := fun ty =>
    filterMap_nil_of_none (by
      intro e he
      rcases mem_content_change_part_iff.mp he with ⟨_, rfl⟩
      simp [content_changed_event])
  have hchg : ∀ ty : String, ty ≠ "tab_changed" → (changed_tab_part case_url
      (jgetD case_data "case_number" (.str "N/A")) prev_state
      (build_current_entry case_data now) now).filterMap
      (fun e => if e.type == ty then e.tab_number else none) = [] := fun ty hty =>
    filterMap_nil_of_none (by
      intro e he
      rcases shape_of_mem_changed_tab_part he with ⟨k, tc, rfl⟩
      exact if_neg (by
        simp only [tab_changed_event, beq_iff_eq]
        exact fun hx => hty hx.symm))
  have hnewnil : (new_tab_part case_url (jgetD case_data "case_number" (.str "N/A")) prev_state
      (build_current_entry case_data now) now).filterMap
      (fun e => if e.type == "removed_tab" then e.tab_number else none) = [] :=
    filterMap_nil_of_none (by
      intro e he
      rcases mem_new_tab_part_iff.mp he with ⟨k, _, _, rfl⟩
      rfl)
  have hremnil : (removed_tab_part case_url (jgetD case_data "case_number" (.str "N/A"))
      prev_state (build_current_entry case_data now) now).filterMap
      (fun e => if e.type == "new_tab" then e.tab_number else none) = [] :=
    filterMap_nil_of_none (by
      intro e he
      rcases mem_removed_tab_part_iff.mp he with ⟨k, _, _, rfl⟩
      rfl)
  constructor
  · rw [hnum, hfld, hcnt, hremnil, hchg "new_tab" (by decide),
      filterMap_tab_number_new]
    simp only [List.nil_append, List.append_nil]
    rw [count_filter_nodup _ hn1]
    by_cases hm : s ∈ (build_current_entry case_data now).tabs_hashes.map Prod.fst
        ∧ s ∉ prev_state.tabs_hashes.map Prod.fst
    · rw [if_pos hm, if_pos ⟨hm.1, by simp [hm.2]⟩]
    · rw [if_neg hm, if_neg (by
        rintro ⟨h1, h2⟩
        exact hm ⟨h1, by simpa using h2⟩)]
  · rw [hnum, hfld, hcnt, hnewnil, hchg "removed_tab" (by decide),
      filterMap_tab_number_removed]
    simp only [List.nil_append, List.append_nil]
    rw [count_filter_nodup _ hn2]
    by_cases hm : s ∈ prev_state.tabs_hashes.map Prod.fst
        ∧ s ∉ (build_current_entry case_data now).tabs_hashes.map Prod.fst
    · rw [if_pos hm, if_pos ⟨hm.1, by simp [hm.2]⟩]
    · rw [if_neg hm, if_neg (by
        rintro ⟨h1, h2⟩
        exact hm ⟨h1, by simpa using h2⟩)]

theorem section_symmetric_difference_law_witness :
    ((track_case_changes
        [("u", build_current_entry
            [("tabs", JValue.obj [("1", JValue.obj [("raw_content", JValue.str "text X")]),
              ("2", JValue.obj [("raw_content", JValue.str "text Y")])])] "t0")]
        "u"
        [("tabs", JValue.obj [("1", JValue.obj [("raw_content", JValue.str "text X")]),
          ("3", JValue.obj [("raw_content", JValue.str "text Z")])])] "t1").filterMap
        (fun e => if e.type == "new_tab" then e.tab_number else none)).count "3"
      = (if "3" ∈ (build_current_entry
            [("tabs", JValue.obj [("1", JValue.obj [("raw_content", JValue.str "text X")]),
              ("3", JValue.obj [("raw_content", JValue.str "text Z")])])]
            "t1").tabs_hashes.map Prod.fst
            ∧ "3" ∉ (build_current_entry
              [("tabs", JValue.obj [("1", JValue.obj [("raw_content", JValue.str "text X")]),
                ("2", JValue.obj [("raw_content", JValue.str "text Y")])])]
              "t0").tabs_hashes.map Prod.fst then 1 else 0)
    ∧ ((track_case_changes
        [("u", build_current_entry
            [("tabs", JValue.obj [("1", JValue.obj [("raw_content", JValue.str "text X")]),
              ("2", JValue.obj [("raw_content", JValue.str "text Y")])])] "t0")]
        "u"
        [("tabs", JValue.obj [("1", JValue.obj [("raw_content", JValue.str "text X")]),
          ("3", JValue.obj [("raw_content", JValue.str "text Z")])])] "t1").filterMap
        (fun e => if e.type == "removed_tab" then e.tab_number else none)).count "3"
      = (if "3" ∈ (build_current_entry
            [("tabs", JValue.obj [("1", JValue.obj [("raw_content", JValue.str "text X")]),
              ("2", JValue.obj [("raw_content", JValue.str "text Y")])])]
            "t0").tabs_hashes.map Prod.fst
            ∧ "3" ∉ (build_current_entry
              [("tabs", JValue.obj [("1", JValue.obj [("raw_content", JValue.str "text X")]),
                ("3", JValue.obj [("raw_content", JValue.str "text Z")])])]
              "t1").tabs_hashes.map Prod.fst then 1 else 0) :=
  section_symmetric_difference_law
    [("u", build_current_entry
        [("tabs", JValue.obj [("1", JValue.obj [("raw_content", JValue.str "text X")]),
          ("2", JValue.obj [("raw_content", JValue.str "text Y")])])] "t0")]
    "u"
    [("tabs", JValue.obj [("1", JValue.obj [("raw_content", JValue.str "text X")]),
      ("3", JValue.obj [("raw_content", JValue.str "text Z")])])] "t1"
    (build_current_entry
      [("tabs", JValue.obj [("1", JValue.obj [("raw_content", JValue.str "text X")]),
        ("2", JValue.obj [("raw_content", JValue.str "text Y")])])] "t0")
    "3" rfl (by decide) (by decide)

/-- Position of an event's kind in the tracker's contractual step order. -/
def eventRank (e : ChangeEvent) : Nat :=
  if e.type = "case_number_changed" then 0
  else if e.type = "field_changed" then 1
  else if e.type = "content_changed" then 2
  else 3

theorem pairwise_rank_const {l : List ChangeEvent} {n : Nat}
    (h : ∀ e ∈ l, eventRank e = n) :
    l.Pairwise (fun a b => eventRank a ≤ eventRank b) := by
  induction l with
  | nil => exact List.Pairwise.nil
  | cons a t ih =>
    refine List.Pairwise.cons ?_ (ih ?_)
    · intro b hb
      rw [h a (List.mem_cons_self a t), h b (List.mem_cons_of_mem a hb)]
    · intro e he
      exact h e (List.mem_cons_of_mem a he)

theorem pairwise_rank_append {l₁ l₂ : List ChangeEvent}
    (h₁ : l₁.Pairwise (fun a b => eventRank a ≤ eventRank b))
    (h₂ : l₂.Pairwise (fun a b => eventRank a ≤ eventRank b))
    (hcross : ∀ a ∈ l₁, ∀ b ∈ l₂, eventRank a ≤ eventRank b) :
    (l₁ ++ l₂).Pairwise (fun a b => eventRank a ≤ eventRank b) :=
  List.pairwise_append.mpr ⟨h₁, h₂, hcross⟩

/-- C6: on a tracked identity the emitted sequence respects the contractual
step order — every `case_number_changed` event precedes every
`field_changed` event, which precede any `content_changed` event, which
precedes all tab-level (`new_tab`/`removed_tab`/`tab_changed`) events. -/
theorem step_order_law (previous_state : List (String × StoredSummary)) (case_url : String)
    (case_data : List (String × JValue)) (now : String) (prev_state : StoredSummary)
    (h : alookup previous_state case_url = some prev_state) :
    (track_case_changes previous_state case_url case_data now).Pairwise
      (fun a b => eventRank a ≤ eventRank b) := by
  rw [track_eq_of_some previous_state case_url case_data now prev_state h]
  simp only [List.append_assoc]
  have r1 : ∀ e ∈ number_change_part case_url (jgetD case_data "case_number" (.str "N/A"))
      prev_state now, eventRank e = 0 := by
    intro e he
    rcases mem_number_change_part_iff.mp he with ⟨_, rfl⟩
    rfl
  have r2 : ∀ e ∈ check_field_changes case_url (jgetD case_data "case_number" (.str "N/A"))
      case_data prev_state now, eventRank e = 1 := by
    intro e he
    rcases mem_check_field_changes_iff.mp he with ⟨f, _, _, rfl⟩
    rfl
  have r3 : ∀ e ∈ content_change_part case_url (jgetD case_data "case_number" (.str "N/A"))
      prev_state (build_current_entry case_data now) now, eventRank e = 2 := by
    intro e he
    rcases mem_content_change_part_iff.mp he with ⟨_, rfl⟩
    rfl
  have r4 : ∀ e ∈ new_tab_part case_url (jgetD case_data "case_number" (.str "N/A"))
      prev_state (build_current_entry case_data now) now, eventRank e = 3 := by
    intro e he
    rcases mem_new_tab_part_iff.mp he with ⟨k, _, _, rfl⟩
    rfl
  have r5 : ∀ e ∈ removed_tab_part case_url (jgetD case_data "case_number" (.str "N/A"))
      prev_state (build_current_entry case_data now) now, eventRank e = 3 := by
    intro e he
    rcases mem_removed_tab_part_iff.mp he with ⟨k, _, _, rfl⟩
    rfl
  have r6 : ∀ e ∈ changed_tab_part case_url (jgetD case_data "case_number" (.str "N/A"))
      prev_state (build_current_entry case_data now) now, eventRank e = 3 := by
    intro e he
    rcases shape_of_mem_changed_tab_part he with ⟨k, tc, rfl⟩
    rfl
  have p56 := pairwise_rank_append (pairwise_rank_const r5) (pairwise_rank_const r6)
    (fun a ha b hb => by rw [r5 a ha, r6 b hb])
  have p456 := pairwise_rank_append (pairwise_rank_const r4) p56
    (fun a ha b hb => by
      rw [r4 a ha]
      rcases List.mem_append.mp hb with hb | hb
      · rw [r5 b hb]
      · rw [r6 b hb])
  have p3456 := pairwise_rank_append (pairwise_rank_const r3) p456
    (fun a ha b hb => by
      rw [r3 a ha]
      rcases List.mem_append.mp hb with hb | hb
      · rw [r4 b hb]; omega
      · rcases List.mem_append.mp hb with hb2 | hb2
        · rw [r5 b hb2]; omega
        · rw [r6 b hb2]; omega)
  have p23456 := pairwise_rank_append (pairwise_rank_const r2) p3456
    (fun a ha b hb => by
      rw [r2 a ha]
      rcases List.mem_append.mp hb with hb | hb
      · rw [r3 b hb]; omega
      · rcases List.mem_append.mp hb with hb2 | hb2
        · rw [r4 b hb2]; omega
        · rcases List.mem_append.mp hb2 with hb3 | hb3
          · rw [r5 b hb3]; omega
          · rw [r6 b hb3]; omega)
  exact pairwise_rank_append (pairwise_rank_const r1) p23456
    (fun a ha b hb => by
      rw [r1 a ha]
      exact Nat.zero_le _)

def prevStepOrder : StoredSummary :=
  { last_check := "t0",
    case_number := JValue.str "A",
    content_hash := "zzz",
    tabs_hashes := [("2", "h2")],
    tabs_content := [("2", JValue.str "y")],
    case_data := [("judge", JValue.str "X")] }

theorem step_order_law_witness :
    (track_case_changes [("u", prevStepOrder)] "u"
        [("case_number", JValue.str "B"), ("judge", JValue.str "Y"),
          ("tabs", JValue.obj [("1", JValue.obj [("raw_content", JValue.str "x")])])]
        "t1").Pairwise (fun a b => eventRank a ≤ eventRank b) :=
  step_order_law [("u", prevStepOrder)] "u"
    [("case_number", JValue.str "B"), ("judge", JValue.str "Y"),
      ("tabs", JValue.obj [("1", JValue.obj [("raw_content", JValue.str "x")])])]
    "t1" prevStepOrder rfl

theorem charListLe_total : ∀ a b : List Char, charListLe a b = true ∨ charListLe b a = true := by
  intro a
  induction a with
  | nil => intro b; left; rfl
  | cons c cs ih =>
    intro b
    cases b with
    | nil => right; rfl
    | cons d ds =>
      by_cases h1 : c.toNat < d.toNat
      · left; simp [charListLe, h1]
      · by_cases h2 : d.toNat < c.toNat
        · right; simp [charListLe, h2]
        · rcases ih ds with h | h
          · left; simp [charListLe, h1, h2, h]
          · right; simp [charListLe, h1, h2, h]

theorem charListLe_trans : ∀ a b c : List Char,
    charListLe a b = true → charListLe b c = true → charListLe a c = true := by
  intro a
  induction a with
  | nil => intro b c _ _; rfl
  | cons x xs ih =>
    intro b c hab hbc
    cases b with
    | nil => simp [charListLe] at hab
    | cons y ys =>
      cases c with
      | nil => simp [charListLe] at hbc
      | cons z zs =>
        simp only [charListLe] at hab hbc ⊢
        by_cases hxy : x.toNat < y.toNat <;> by_cases hyx : y.toNat < x.toNat
          <;> by_cases hyz : y.toNat < z.toNat <;> by_cases hzy : z.toNat < y.toNat
          <;> simp only [hxy, hyx, hyz, hzy, if_true, if_false] at hab hbc ⊢
          <;> try omega
        all_goals (try (rw [if_pos (by omega)]))
        all_goals (try (rw [if_neg (by omega), if_neg (by omega)]))
        all_goals simp_all
        all_goals exact ih ys zs hab hbc

theorem charListLe_antisymm : ∀ a b : List Char,
    charListLe a b = true → charListLe b a = true → a = b := by
  intro a
  induction a with
  | nil =>
    intro b _ hba
    cases b with
    | nil => rfl
    | cons d ds => simp [charListLe] at hba
  | cons c cs ih =>
    intro b hab hba
    cases b with
    | nil => simp [charListLe] at hab
    | cons d ds =>
      simp only [charListLe] at hab hba
      by_cases h1 : c.toNat < d.toNat
      · rw [if_neg (by omega), if_pos h1] at hba
        exact absurd hba (by simp)
      · by_cases h2 : d.toNat < c.toNat
        · rw [if_neg h1, if_pos h2] at hab
          exact absurd hab (by simp)
        · rw [if_neg h1, if_neg h2] at hab
          rw [if_neg h2, if_neg h1] at hba
          have hcd : c = d := by
            have hn : c.toNat = d.toNat := by omega
            rw [← Char.ofNat_toNat c, ← Char.ofNat_toNat d, hn]
          rw [hcd, ih ds hab hba]

instance keyLeTotal {α : Type} : IsTotal (String × α) keyLe :=
  ⟨fun a b => by
    unfold keyLe strLeB
    rcases charListLe_total a.1.data b.1.data with h | h
    · exact Or.inl h
    · exact Or.inr h⟩

instance keyLeTrans {α : Type} : IsTrans (String × α) keyLe :=
  ⟨fun a b c hab hbc => charListLe_trans a.1.data b.1.data c.1.data hab hbc⟩

/-- The strict companion of `keyLe` used to identify sorted lists uniquely. -/
def keyLeNe {α : Type} (a b : String × α) : Prop := keyLe a b ∧ a.1 ≠ b.1

instance keyLeNeAntisymm {α : Type} : IsAntisymm (String × α) keyLeNe :=
  ⟨fun a b hab hba => by
    have heq : a.1.data = b.1.data := charListLe_antisymm _ _ hab.1 hba.1
    exact absurd (String.ext heq) hab.2⟩

/-- Two permuted association lists with the same distinct keys sort to the
same list. -/
theorem insertionSort_eq_of_perm_nodup {β : Type} (l1 l2 : List (String × β))
    (hp : l1.Perm l2) (hn : (l1.map Prod.fst).Nodup) :
    l1.insertionSort keyLe = l2.insertionSort keyLe := by
  have hs1 : (l1.insertionSort keyLe).Sorted keyLe := List.sorted_insertionSort keyLe l1
  have hs2 : (l2.insertionSort keyLe).Sorted keyLe := List.sorted_insertionSort keyLe l2
  have hperm : (l1.insertionSort keyLe).Perm (l2.insertionSort keyLe) :=
    ((List.perm_insertionSort keyLe l1).trans hp).trans (List.perm_insertionSort keyLe l2).symm
  have hn1 : ((l1.insertionSort keyLe).map Prod.fst).Nodup :=
    (((List.perm_insertionSort keyLe l1).map Prod.fst).nodup_iff).mpr hn
  have hn2 : ((l2.insertionSort keyLe).map Prod.fst).Nodup :=
    ((hperm.map Prod.fst).nodup_iff).mp hn1
  have ha1 : (l1.insertionSort keyLe).Sorted keyLeNe :=
    hs1.and (List.pairwise_map.mp hn1)
  have ha2 : (l2.insertionSort keyLe).Sorted keyLeNe :=
    hs2.and (List.pairwise_map.mp hn2)
  exact List.eq_of_perm_of_sorted hperm ha1 ha2

/-- C9: the fingerprint is canonicalizing for dicts and order-sensitive for
text — two dicts with the same key-value pairs in different insertion
orders hash identically (keys are sorted before serialization), while a
concrete line reordering of a text input changes the digest. -/
theorem hash_canonicalization (l1 l2 : List (String × JValue)) (hp : l1.Perm l2)
    (hn : (l1.map Prod.fst).Nodup) :
    calculate_content_hash (.obj l1) = calculate_content_hash (.obj l2)
      ∧ calculate_content_hash (.str "a\nb") ≠ calculate_content_hash (.str "b\na") := by
  constructor
  · have hd : jsonDumpsSorted (.obj l1) = jsonDumpsSorted (.obj l2) := by
      have hmap : ∀ l : List (String × JValue), jsonDumpsSorted.dumpsFields l
          = l.map (fun p => (p.1, jsonDumpsSorted p.2)) := by
        intro l
        induction l with
        | nil => rfl
        | cons p t ih =>
          cases p with
          | mk k v => rw [List.map_cons]; exact congrArg _ ih
      have hperm : (jsonDumpsSorted.dumpsFields l1).Perm (jsonDumpsSorted.dumpsFields l2) := by
        rw [hmap l1, hmap l2]
        exact hp.map _
      have hnd : ((jsonDumpsSorted.dumpsFields l1).map Prod.fst).Nodup := by
        rw [hmap l1, List.map_map]
        exact hn
      have hsort := insertionSort_eq_of_perm_nodup _ _ hperm hnd
      show "\x7b" ++ String.intercalate ", "
          (((jsonDumpsSorted.dumpsFields l1).insertionSort keyLe).map
            (fun p => jsonQuote p.1 ++ ": " ++ p.2)) ++ "\x7d"
        = "\x7b" ++ String.intercalate ", "
          (((jsonDumpsSorted.dumpsFields l2).insertionSort keyLe).map
            (fun p => jsonQuote p.1 ++ ": " ++ p.2)) ++ "\x7d"
      rw [hsort]
    show md5hexStr (jsonDumpsSorted (.obj l1)) = md5hexStr (jsonDumpsSorted (.obj l2))
    rw [hd]
  · decide

theorem hash_canonicalization_witness :
    calculate_content_hash (.obj [("b", JValue.str "1"), ("a", JValue.null)])
        = calculate_content_hash (.obj [("a", JValue.null), ("b", JValue.str "1")])
      ∧ calculate_content_hash (.str "a\nb") ≠ calculate_content_hash (.str "b\na") :=
  hash_canonicalization [("b", JValue.str "1"), ("a", JValue.null)]
    [("a", JValue.null), ("b", JValue.str "1")] (by decide) (by decide)

end CaseCommon
